import Mathlib

/-!
Shallow embedding of src/rpc/mining.cpp (mining RPC layer of the node):
the static block-template cache inside getblocktemplate, the BIP22
long-poll wait loop, the BIP22 validation-result classifier, submitblock
with its scoped validation-state catcher, the proposal mode of
getblocktemplate, the direct mining loop generateBlocks, and the
depends-index computation of the template response.  Hashes, block
templates and scripts are abstracted to natural numbers; the external
collaborators (chain state, mempool, assembler, validation engine) enter
as explicit parameters or environment records.
-/

/-- RPC error value thrown by JSONRPCError: an error code and a message. -/
structure RpcErr where
  code : Int
  message : String
deriving DecidableEq

/-- Error code from rpc/protocol.h used for internal errors. -/
def RPC_INTERNAL_ERROR : Int := -32603

/-- Error code from rpc/protocol.h used when the assembler cannot build. -/
def RPC_OUT_OF_MEMORY : Int := -7

/-- Error code from rpc/protocol.h for verification failures. -/
def RPC_VERIFY_ERROR : Int := -25

/-- Error code from rpc/protocol.h for undecodable submitted bytes. -/
def RPC_DESERIALIZATION_ERROR : Int := -22

/-- Error code from rpc/protocol.h for a disconnected or stopping node. -/
def RPC_CLIENT_NOT_CONNECTED : Int := -9

/-- UniValue results relevant to these RPCs: JSON null or a string. -/
inductive RpcOut where
  | nullv : RpcOut
  | strv : String → RpcOut
deriving DecidableEq

/-- BlockValidationState of the engine: mode 0 is valid, mode 1 is invalid
(with a reject reason), mode 2 is an internal error (with a message);
the mode is kept as a bare Nat because the classifier in the source
defensively handles an out-of-range mode as well. -/
structure BlockValidationState where
  mode : Nat
  rejectReason : String
  msg : String
deriving DecidableEq

/-- IsValid of BlockValidationState. -/
def BlockValidationState.IsValid (s : BlockValidationState) : Prop := s.mode = 0

/-- IsInvalid of BlockValidationState. -/
def BlockValidationState.IsInvalid (s : BlockValidationState) : Prop := s.mode = 1

/-- IsError of BlockValidationState. -/
def BlockValidationState.IsError (s : BlockValidationState) : Prop := s.mode = 2

instance (s : BlockValidationState) : Decidable s.IsValid := Nat.decEq s.mode 0

instance (s : BlockValidationState) : Decidable s.IsInvalid := Nat.decEq s.mode 1

instance (s : BlockValidationState) : Decidable s.IsError := Nat.decEq s.mode 2

/-- BIP22ValidationResult from src/rpc/mining.cpp lines 335-351: valid
maps to JSON null, an error is thrown as a verification failure carrying
the message, invalid maps to the reject reason or the literal string
rejected when the reason is empty, and any other state maps to the
literal string with a question mark. -/
def BIP22ValidationResult (s : BlockValidationState) : Except RpcErr RpcOut :=
  if s.IsValid then .ok .nullv
  else if s.IsError then .error ⟨RPC_VERIFY_ERROR, s.msg⟩
  else if s.IsInvalid then
    (if s.rejectReason = "" then .ok (.strv ("rejected")) else .ok (.strv s.rejectReason))
  else .ok (.strv ("valid?"))

/-- Transaction: its hash, the hashes referenced by its inputs
(prevout.hash of each CTxIn), and whether it is a coinbase. -/
structure Tx where
  hash : Nat
  inputs : List Nat
  isCoinBase : Bool
deriving DecidableEq

/-- Block as submitted or proposed: its hash, the declared predecessor
hash, and its transaction list. -/
structure Block where
  hash : Nat
  hashPrevBlock : Nat
  vtx : List Tx
deriving DecidableEq

/-- Summary of a CBlockIndex record: whether IsValid with level
BLOCK_VALID_SCRIPTS holds, and whether nStatus has BLOCK_FAILED_MASK. -/
structure BlockRec where
  validScripts : Bool
  failedMask : Bool
deriving DecidableEq

/-- Environment of one submitblock call: the block index lookup, the
answer of ProcessNewBlock (accepted flag and the fNewBlock out value),
and the stream of BlockChecked events delivered while the catcher is
registered, each a hash paired with a validation state. -/
structure NodeEnv where
  blockIndex : Nat → Option BlockRec
  accepted : Bool
  newBlock : Bool
  events : List (Nat × BlockValidationState)

/-- The submitblock state catcher: it records an event only when the
delivered hash equals the target hash, each later matching event
overwriting the earlier, so the captured state is the last matching
event of the stream (none when no event matched). -/
def stateCatcher (target : Nat) : List (Nat × BlockValidationState) → Option BlockValidationState
  | [] => none
  | e :: rest =>
    match stateCatcher target rest with
    | some s => some s
    | none => if e.1 = target then some e.2 else none

/-- Tail of submitblock (src/rpc/mining.cpp lines 712-723) after the
catcher is registered and ProcessNewBlock runs: a block accepted but not
new is a duplicate, an unfired catcher is inconclusive, otherwise the
captured state is classified.  The boolean records that the engine was
invoked. -/
def submitToEngine (env : NodeEnv) (block : Block) : Except RpcErr RpcOut × Bool :=
  if env.newBlock = false ∧ env.accepted = true then (.ok (.strv ("duplicate")), true)
  else
    match stateCatcher block.hash env.events with
    | none => (.ok (.strv ("inconclusive")), true)
    | some st => (BIP22ValidationResult st, true)

/-- The submitblock RPC (src/rpc/mining.cpp lines 680-724) after hex
decoding: reject a block not starting with a coinbase, answer duplicate
or duplicate-invalid from a pre-existing index record, and otherwise
register the catcher and submit to the engine.  The boolean of the
result records whether the engine was invoked. -/
def submitblock (env : NodeEnv) (block : Block) : Except RpcErr RpcOut × Bool :=
  match block.vtx with
  | [] => (.error ⟨RPC_DESERIALIZATION_ERROR, "Block does not start with a coinbase"⟩, false)
  | tx0 :: _ =>
    if tx0.isCoinBase = false then
      (.error ⟨RPC_DESERIALIZATION_ERROR, "Block does not start with a coinbase"⟩, false)
    else
      match env.blockIndex block.hash with
      | some r =>
        if r.validScripts = true then (.ok (.strv ("duplicate")), false)
        else if r.failedMask = true then (.ok (.strv ("duplicate-invalid")), false)
        else submitToEngine env block
      | none => submitToEngine env block

/-- Proposal mode of getblocktemplate (src/rpc/mining.cpp lines
454-474) after hex decoding: a known hash answers from the index
record; an unknown block whose declared predecessor is not the live tip
answers inconclusive-not-best-prevblk; otherwise TestBlockValidity runs
and its state is classified.  The boolean records whether
TestBlockValidity was invoked; its outcome is the parameter tr. -/
def proposalMode (bi : Nat → Option BlockRec) (tipHash : Nat)
    (tr : BlockValidationState) (block : Block) : Except RpcErr RpcOut × Bool :=
  match bi block.hash with
  | some r =>
    if r.validScripts = true then (.ok (.strv ("duplicate")), false)
    else if r.failedMask = true then (.ok (.strv ("duplicate-invalid")), false)
    else (.ok (.strv ("duplicate-inconclusive")), false)
  | none =>
    if block.hashPrevBlock ≠ tipHash then
      (.ok (.strv ("inconclusive-not-best-prevblk")), false)
    else (BIP22ValidationResult tr, true)

/-- The static state of the template cache inside getblocktemplate:
pindexPrev (none models the null pointer), nTransactionsUpdatedLast,
nStart, and pblocktemplate (none models the null unique pointer);
template contents are abstracted to a Nat identity. -/
structure GbtCache where
  pindexPrev : Option Nat
  nTransactionsUpdatedLast : Nat
  nStart : Int
  pblocktemplate : Option Nat
deriving DecidableEq

/-- Rebuild condition of the template cache (src/rpc/mining.cpp line
544): the cached tip pointer differs from the current tip, or the
mempool counter moved and more than 5 time units passed since the last
build started. -/
def rebuildNeeded (st : GbtCache) (tip txu : Nat) (now : Int) : Bool :=
  decide (st.pindexPrev ≠ some tip) ||
    (decide (txu ≠ st.nTransactionsUpdatedLast) && decide (now - st.nStart > 5))

/-- The update-block section of getblocktemplate (src/rpc/mining.cpp
lines 540-563).  On rebuild the code first clears pindexPrev, snapshots
the current counter, tip and time into the statics, and assigns the
assembler result to the static template; a null assembler result then
throws out-of-memory, leaving the cleared state behind; on success
pindexPrev is set to the snapshotted tip.  Without rebuild the cached
state and template are returned untouched.  The result is the new
static state, the template handed out (or the thrown error), and a flag
telling whether the assembler was invoked. -/
def updateBlock (st : GbtCache) (tip txu : Nat) (now : Int) (asmres : Option Nat) :
    GbtCache × Except RpcErr (Option Nat) × Bool :=
  if rebuildNeeded st tip txu now then
    match asmres with
    | none =>
      (⟨none, txu, now, none⟩, .error ⟨RPC_OUT_OF_MEMORY, "Out of memory"⟩, true)
    | some tpl =>
      (⟨some tip, txu, now, some tpl⟩, .ok (some tpl), true)
  else (st, .ok st.pblocktemplate, false)

/-- Exit classification of the long-poll loop: the watched tip changed,
the mempool counter moved at a deadline, the RPC server stopped, or the
finite observation trace ran out while the loop would have kept
waiting. -/
inductive LPExit where
  | tipChanged : LPExit
  | mempoolChanged : LPExit
  | rpcStopped : LPExit
  | noWake : LPExit
deriving DecidableEq

/-- One observation of the live node state at a wake of the long-poll
loop: the best block hash, whether the RPC server is running, whether
the condition-variable wait timed out, and the mempool
transactions-updated counter. -/
structure LPObs where
  bestBlock : Nat
  rpcRunning : Bool
  timedOut : Bool
  txUpdated : Nat
deriving DecidableEq

/-- The long-poll wait loop of getblocktemplate (src/rpc/mining.cpp
lines 520-531) over a finite trace of wakes: while the best block
equals the watched hash and the RPC runs, suspend; a timed-out wake
compares the mempool counter with the watched one and either breaks or
extends the deadline by 10 seconds; a non-timed-out wake re-checks the
head condition only.  Returns the exit classification, the final
deadline, and the observation live at exit. -/
def lpLoop (wh wt : Nat) : Int → LPObs → List LPObs → LPExit × Int × LPObs
  | deadline, cur, [] =>
    if cur.bestBlock = wh ∧ cur.rpcRunning = true then (.noWake, deadline, cur)
    else ((if cur.rpcRunning = true then .tipChanged else .rpcStopped), deadline, cur)
  | deadline, cur, nxt :: rest =>
    if cur.bestBlock = wh ∧ cur.rpcRunning = true then
      (if nxt.timedOut = true then
        (if nxt.txUpdated ≠ wt then (.mempoolChanged, deadline, nxt)
         else lpLoop wh wt (deadline + 10) nxt rest)
       else lpLoop wh wt deadline nxt rest)
    else ((if cur.rpcRunning = true then .tipChanged else .rpcStopped), deadline, cur)

/-- Entry into the long-poll wait: the first deadline is one minute (60
seconds) past the start time (src/rpc/mining.cpp line 518). -/
def longpollWait (wh wt : Nat) (startTime : Int) (cur : LPObs) (fut : List LPObs) :
    LPExit × Int × LPObs :=
  lpLoop wh wt (startTime + 60) cur fut

/-- After the long-poll wait (src/rpc/mining.cpp lines 535-536) the
code re-checks IsRPCRunning: when stopped it throws the shutting-down
error, otherwise the request proceeds to the template answer computed
from current state (abstracted as the parameter answer). -/
def tmplAfterWait (wh wt : Nat) (startTime : Int) (cur : LPObs) (fut : List LPObs)
    (answer : Nat) : Except RpcErr Nat :=
  if (longpollWait wh wt startTime cur fut).2.2.rpcRunning = true then .ok answer
  else .error ⟨RPC_CLIENT_NOT_CONNECTED, "Shutting down"⟩

/-- Environment of the direct mining loop: the proof-of-work check per
assembler invocation index and nonce, whether CreateNewBlock succeeds
per invocation, whether ProcessNewBlock accepts per invocation, and the
shutdown flag as a function of the count of nonce steps performed so
far. -/
structure MineEnv where
  powOk : Nat → Nat → Bool
  assembleOk : Nat → Bool
  processOk : Nat → Bool
  shutdown : Nat → Bool

/-- Largest 32-bit nonce, the bound of the nonce search. -/
def maxNonce : Nat := 4294967295

/-- The inner nonce search of generateBlocks (src/rpc/mining.cpp line
61): while tries remain, the nonce is below the 32-bit bound, the hash
fails the target and shutdown has not fired, increment the nonce and
spend a try.  Returns remaining tries, the final nonce, and the global
step count. -/
def powSearch (env : MineEnv) (it : Nat) : Nat → Nat → Nat → Nat × Nat × Nat
  | 0, nonce, step => (0, nonce, step)
  | t + 1, nonce, step =>
    if nonce < maxNonce ∧ env.powOk it nonce = false ∧ env.shutdown step = false then
      powSearch env it t (nonce + 1) (step + 1)
    else (t + 1, nonce, step)

/-- The outer loop of generateBlocks (src/rpc/mining.cpp lines 51-76):
per height, build a template (a null result throws an internal error),
search the nonce space; when the try budget hits zero or shutdown
fired, stop the whole loop returning the hashes gathered so far; when
the nonce space wrapped, rebuild at the same height; otherwise process
the block (a rejection throws an internal error), record its hash
(modelled as the pair of invocation index and nonce) and advance. -/
def genLoop (env : MineEnv) (remaining tries it step : Nat) (acc : List (Nat × Nat)) :
    Except RpcErr (List (Nat × Nat)) :=
  match remaining with
  | 0 => .ok acc
  | r + 1 =>
    if env.shutdown step = true then .ok acc
    else if env.assembleOk it = false then
      .error ⟨RPC_INTERNAL_ERROR, "Could not create new block"⟩
    else
      let res := powSearch env it tries 0 step
      if res.1 = 0 ∨ env.shutdown res.2.2 = true then .ok acc
      else if hmax : res.2.1 = maxNonce then genLoop env (r + 1) res.1 (it + 1) res.2.2 acc
      else if env.processOk it = false then
        .error ⟨RPC_INTERNAL_ERROR, "ProcessNewBlock, block not accepted"⟩
      else genLoop env r res.1 (it + 1) res.2.2 (acc ++ [(it, res.2.1)])
termination_by tries + remaining
decreasing_by
  all_goals
    have key : ∀ (t n s : Nat),
        (powSearch env it t n s).1 + (powSearch env it t n s).2.1 = t + n := by
      intro t
      induction t with
      | zero => intro n s; simp [powSearch]
      | succ k ih =>
        intro n s
        by_cases hc : n < maxNonce ∧ env.powOk it n = false ∧ env.shutdown s = false
        · rw [powSearch, if_pos hc]
          have := ih (n + 1) (s + 1)
          omega
        · rw [powSearch, if_neg hc]
  all_goals
    have hr : res = powSearch env it tries 0 step := rfl
    have h2 := key tries 0 step
    simp only [hr, maxNonce] at *
    omega

/-- Entry into the direct mining loop: generateBlocks with the height
budget and the try budget, starting from invocation 0, step 0 and no
hashes gathered. -/
def generateBlocks (env : MineEnv) (nGenerate nMaxTries : Nat) :
    Except RpcErr (List (Nat × Nat)) :=
  genLoop env nGenerate nMaxTries 0 0 []

/-- Lookup in the transaction index map built by the template response
loop; the map is kept as an association list whose head is the most
recent insertion, matching overwriting map assignment. -/
def lookupIdx : List (Nat × Nat) → Nat → Option Nat
  | [], _ => none
  | (k, v) :: rest, h => if h = k then some v else lookupIdx rest h

/-- The depends array of one transaction entry (src/rpc/mining.cpp
lines 590-595): the indices found in the map for the prevout hashes of
the inputs, unknown hashes skipped. -/
def gbtDeps (m : List (Nat × Nat)) (ins : List Nat) : List Nat :=
  ins.filterMap (lookupIdx m)

/-- The transaction listing loop of the template response
(src/rpc/mining.cpp lines 573-605): walk the block transactions with a
running index, record each transaction hash in the index map before
computing its entry, skip the coinbase, and emit for every other
transaction its index and its depends array. -/
def gbtEntries : List Tx → Nat → List (Nat × Nat) → List (Nat × List Nat)
  | [], _, _ => []
  | tx :: rest, i, m =>
    if tx.isCoinBase = true then gbtEntries rest (i + 1) ((tx.hash, i) :: m)
    else (i, gbtDeps ((tx.hash, i) :: m) tx.inputs) :: gbtEntries rest (i + 1) ((tx.hash, i) :: m)

/-- Helper: the catcher stays empty exactly on a stream with no event
for the target hash. -/
theorem stateCatcher_eq_none (target : Nat) (events : List (Nat × BlockValidationState))
    (h : ∀ e ∈ events, e.1 ≠ target) : stateCatcher target events = none := by
  induction events with
  | nil => rfl
  | cons e rest ih =>
    have hrest := ih (fun x hx => h x (List.mem_cons_of_mem e hx))
    have he : e.1 ≠ target := h e (List.mem_cons_self e rest)
    rw [stateCatcher, hrest, if_neg he]

/-- Helper: past the coinbase check and a pre-existing-record check that
does not answer, submitblock reduces to the engine path. -/
theorem submitblock_engine_path (env : NodeEnv) (block : Block) (tx0 : Tx) (rest : List Tx)
    (hvtx : block.vtx = tx0 :: rest) (hcb : tx0.isCoinBase = true)
    (hpre : env.blockIndex block.hash = none ∨
      ∃ r, env.blockIndex block.hash = some r ∧ r.validScripts = false ∧ r.failedMask = false) :
    submitblock env block = submitToEngine env block := by
  rcases hpre with hnone | ⟨r, hr, hv, hf⟩
  · simp [submitblock, hvtx, hcb, hnone]
  · simp [submitblock, hvtx, hcb, hr, hv, hf]

/-- C5: for a submitted block past decoding and the pre-existing-record
check, submitblock answers the string duplicate when the engine reports
accepted but not new; the string inconclusive when the catcher recorded
no outcome for this hash (equivalently, no delivered event carried this
hash); and otherwise the classification of the captured state: JSON
null for valid, the reject reason for invalid with a non-empty reason,
the literal rejected for invalid with an empty reason, a thrown
verification failure carrying the engine message for error, and the
literal valid-question-mark for any other mode. -/
theorem submitblock_classification (env : NodeEnv) (block : Block) (tx0 : Tx) (rest : List Tx)
    (hvtx : block.vtx = tx0 :: rest) (hcb : tx0.isCoinBase = true)
    (hpre : env.blockIndex block.hash = none ∨
      ∃ r, env.blockIndex block.hash = some r ∧ r.validScripts = false ∧ r.failedMask = false) :
    (env.newBlock = false → env.accepted = true →
      submitblock env block = (.ok (.strv ("duplicate")), true))
    ∧ (¬(env.newBlock = false ∧ env.accepted = true) →
        ((∀ e ∈ env.events, e.1 ≠ block.hash) →
          submitblock env block = (.ok (.strv ("inconclusive")), true))
        ∧ ∀ st, stateCatcher block.hash env.events = some st →
            (st.mode = 0 → submitblock env block = (.ok .nullv, true))
            ∧ (st.mode = 2 → submitblock env block = (.error ⟨RPC_VERIFY_ERROR, st.msg⟩, true))
            ∧ (st.mode = 1 → st.rejectReason ≠ "" →
                submitblock env block = (.ok (.strv st.rejectReason), true))
            ∧ (st.mode = 1 → st.rejectReason = "" →
                submitblock env block = (.ok (.strv ("rejected")), true))
            ∧ (st.mode ≠ 0 → st.mode ≠ 1 → st.mode ≠ 2 →
                submitblock env block = (.ok (.strv ("valid?")), true))) := by
  have hsb := submitblock_engine_path env block tx0 rest hvtx hcb hpre
  refine ⟨?_, ?_⟩
  · intro hnb hacc
    rw [hsb, submitToEngine, if_pos ⟨hnb, hacc⟩]
  · intro hrace
    refine ⟨?_, ?_⟩
    · intro hnoev
      rw [hsb, submitToEngine, if_neg hrace, stateCatcher_eq_none block.hash env.events hnoev]
    · intro st hst
      have hcls : submitblock env block = (BIP22ValidationResult st, true) := by
        rw [hsb, submitToEngine, if_neg hrace, hst]
      refine ⟨?_, ?_, ?_, ?_, ?_⟩
      · intro h0
        rw [hcls]
        simp [BIP22ValidationResult, BlockValidationState.IsValid, h0]
      · intro h2
        rw [hcls]
        simp [BIP22ValidationResult, BlockValidationState.IsValid,
          BlockValidationState.IsError, h2]
      · intro h1 hre
        rw [hcls]
        simp [BIP22ValidationResult, BlockValidationState.IsValid,
          BlockValidationState.IsError, BlockValidationState.IsInvalid, h1, hre]
      · intro h1 hre
        rw [hcls]
        simp [BIP22ValidationResult, BlockValidationState.IsValid,
          BlockValidationState.IsError, BlockValidationState.IsInvalid, h1, hre]
      · intro h0 h1 h2
        rw [hcls]
        simp [BIP22ValidationResult, BlockValidationState.IsValid,
          BlockValidationState.IsError, BlockValidationState.IsInvalid, h0, h1, h2]

/-- Witness for C5 at a concrete call: accepted but not new answers
duplicate. -/
theorem submitblock_classification_witness :
    submitblock ⟨fun _ => none, true, false, []⟩ ⟨100, 99, [⟨1, [], true⟩]⟩ =
      (.ok (.strv ("duplicate")), true) :=
  (submitblock_classification ⟨fun _ => none, true, false, []⟩ ⟨100, 99, [⟨1, [], true⟩]⟩
    ⟨1, [], true⟩ [] rfl rfl (Or.inl rfl)).1 rfl rfl

/-- C6: a submitted block whose hash already has an index record
answers duplicate when the record passed script-level validation and
duplicate-invalid when the record is marked permanently failed, in both
cases without invoking the engine. -/
theorem submitblock_duplicate_checks (env : NodeEnv) (block : Block) (tx0 : Tx)
    (rest : List Tx) (r : BlockRec) (hvtx : block.vtx = tx0 :: rest)
    (hcb : tx0.isCoinBase = true) (hidx : env.blockIndex block.hash = some r) :
    (r.validScripts = true → submitblock env block = (.ok (.strv ("duplicate")), false))
    ∧ (r.validScripts = false → r.failedMask = true →
        submitblock env block = (.ok (.strv ("duplicate-invalid")), false)) := by
  constructor
  · intro hv
    simp [submitblock, hvtx, hcb, hidx, hv]
  · intro hv hf
    simp [submitblock, hvtx, hcb, hidx, hv, hf]

/-- Witness for C6 at concrete calls: both duplicate answers. -/
theorem submitblock_duplicate_checks_witness :
    submitblock ⟨fun _ => some ⟨true, false⟩, false, false, []⟩ ⟨100, 99, [⟨1, [], true⟩]⟩ =
      (.ok (.strv ("duplicate")), false)
    ∧ submitblock ⟨fun _ => some ⟨false, true⟩, false, false, []⟩ ⟨100, 99, [⟨1, [], true⟩]⟩ =
      (.ok (.strv ("duplicate-invalid")), false) :=
  ⟨(submitblock_duplicate_checks ⟨fun _ => some ⟨true, false⟩, false, false, []⟩
      ⟨100, 99, [⟨1, [], true⟩]⟩ ⟨1, [], true⟩ [] ⟨true, false⟩ rfl rfl rfl).1 rfl,
   (submitblock_duplicate_checks ⟨fun _ => some ⟨false, true⟩, false, false, []⟩
      ⟨100, 99, [⟨1, [], true⟩]⟩ ⟨1, [], true⟩ [] ⟨false, true⟩ rfl rfl rfl).2 rfl rfl⟩

/-- C7: a proposal-mode block with an unknown hash whose declared
predecessor differs from the live tip always answers
inconclusive-not-best-prevblk without invoking full validation,
whatever the validation outcome would have been. -/
theorem proposal_not_best_prevblk (bi : Nat → Option BlockRec) (tipHash : Nat)
    (tr : BlockValidationState) (block : Block)
    (hunknown : bi block.hash = none) (hprev : block.hashPrevBlock ≠ tipHash) :
    proposalMode bi tipHash tr block = (.ok (.strv ("inconclusive-not-best-prevblk")), false) := by
  simp [proposalMode, hunknown, hprev]

/-- Witness for C7 at a concrete call. -/
theorem proposal_not_best_prevblk_witness :
    proposalMode (fun _ => none) 5 ⟨1, "bad", "bad"⟩ ⟨1, 2, []⟩ =
      (.ok (.strv ("inconclusive-not-best-prevblk")), false) :=
  proposal_not_best_prevblk (fun _ => none) 5 ⟨1, "bad", "bad"⟩ ⟨1, 2, []⟩ rfl (by decide)

/-- C10: a submitted block whose hash has an index record that neither
passed script validation nor is marked failed does not answer from the
duplicate checks: submitblock proceeds to the engine path (catcher
registered, block resubmitted), while proposal mode at the same state
answers duplicate-inconclusive without validation. -/
theorem submitblock_unknown_state_resubmits (env : NodeEnv) (block : Block) (tx0 : Tx)
    (rest : List Tx) (r : BlockRec) (tipHash : Nat) (tr : BlockValidationState)
    (hvtx : block.vtx = tx0 :: rest) (hcb : tx0.isCoinBase = true)
    (hidx : env.blockIndex block.hash = some r)
    (hv : r.validScripts = false) (hf : r.failedMask = false) :
    submitblock env block = submitToEngine env block
    ∧ (submitblock env block).2 = true
    ∧ proposalMode env.blockIndex tipHash tr block =
        (.ok (.strv ("duplicate-inconclusive")), false) := by
  have hsb := submitblock_engine_path env block tx0 rest hvtx hcb (Or.inr ⟨r, hidx, hv, hf⟩)
  refine ⟨hsb, ?_, ?_⟩
  · rw [hsb, submitToEngine]
    split
    · rfl
    · split <;> rfl
  · simp [proposalMode, hidx, hv, hf]

/-- Witness for C10 at a concrete call. -/
theorem submitblock_unknown_state_resubmits_witness :
    submitblock ⟨fun _ => some ⟨false, false⟩, true, true, []⟩ ⟨100, 99, [⟨1, [], true⟩]⟩ =
      submitToEngine ⟨fun _ => some ⟨false, false⟩, true, true, []⟩ ⟨100, 99, [⟨1, [], true⟩]⟩
    ∧ (submitblock ⟨fun _ => some ⟨false, false⟩, true, true, []⟩
        ⟨100, 99, [⟨1, [], true⟩]⟩).2 = true
    ∧ proposalMode (fun _ => some ⟨false, false⟩) 7 ⟨0, "", ""⟩ ⟨100, 99, [⟨1, [], true⟩]⟩ =
        (.ok (.strv ("duplicate-inconclusive")), false) :=
  submitblock_unknown_state_resubmits ⟨fun _ => some ⟨false, false⟩, true, true, []⟩
    ⟨100, 99, [⟨1, [], true⟩]⟩ ⟨1, [], true⟩ [] ⟨false, false⟩ 7 ⟨0, "", ""⟩ rfl rfl rfl rfl rfl

/-- C1: the assembler is invoked exactly when no entry exists (null
cached tip pointer), the current tip differs from the cached one, or
the mempool counter moved and more than the 5-unit cooldown elapsed
since the last build; otherwise the cached state and template are
returned unchanged; a successful rebuild stores the tip and counter
snapshotted before the assembler ran together with the new template. -/
theorem gbt_cache_rebuild_iff (st : GbtCache) (tip txu : Nat) (now : Int)
    (asmres : Option Nat) :
    ((updateBlock st tip txu now asmres).2.2 = true ↔
      (st.pindexPrev = none ∨ st.pindexPrev ≠ some tip ∨
        (txu ≠ st.nTransactionsUpdatedLast ∧ now - st.nStart > 5)))
    ∧ ((updateBlock st tip txu now asmres).2.2 = false →
        updateBlock st tip txu now asmres = (st, .ok st.pblocktemplate, false))
    ∧ (∀ tpl, asmres = some tpl → (updateBlock st tip txu now asmres).2.2 = true →
        (updateBlock st tip txu now asmres).1 = ⟨some tip, txu, now, some tpl⟩
        ∧ (updateBlock st tip txu now asmres).2.1 = .ok (some tpl)) := by
  have hprop : rebuildNeeded st tip txu now = true ↔
      (st.pindexPrev ≠ some tip ∨
        (txu ≠ st.nTransactionsUpdatedLast ∧ now - st.nStart > 5)) := by
    simp [rebuildNeeded]
  by_cases hrb : rebuildNeeded st tip txu now = true
  · refine ⟨⟨fun _ => ?_, fun _ => ?_⟩, fun hfalse => ?_, fun tpl htpl _ => ?_⟩
    · rcases hprop.mp hrb with h | h
      · exact Or.inr (Or.inl h)
      · exact Or.inr (Or.inr h)
    · cases asmres <;> simp [updateBlock, hrb]
    · exfalso
      cases asmres <;> simp [updateBlock, hrb] at hfalse
    · subst htpl
      constructor <;> simp [updateBlock, hrb]
  · have hrb' : rebuildNeeded st tip txu now = false := by
      revert hrb
      cases rebuildNeeded st tip txu now <;> simp
    have hnot : ¬(st.pindexPrev = none ∨ st.pindexPrev ≠ some tip ∨
        (txu ≠ st.nTransactionsUpdatedLast ∧ now - st.nStart > 5)) := by
      intro h
      apply hrb
      apply hprop.mpr
      rcases h with h | h | h
      · exact Or.inl (by simp [h])
      · exact Or.inl h
      · exact Or.inr h
    refine ⟨?_, fun _ => ?_, fun tpl _ htrue => ?_⟩
    · simp only [updateBlock, hrb', if_false, Bool.false_eq_true]
      exact ⟨fun h => absurd h (by simp), fun h => absurd h hnot⟩
    · simp [updateBlock, hrb']
    · exfalso
      simp [updateBlock, hrb'] at htrue
  
/-- Witness for C1 at a concrete call: an empty cache forces a
rebuild. -/
theorem gbt_cache_rebuild_iff_witness :
    (updateBlock ⟨none, 0, 0, none⟩ 1 0 0 (some 5)).2.2 = true :=
  (gbt_cache_rebuild_iff ⟨none, 0, 0, none⟩ 1 0 0 (some 5)).1.mpr (Or.inl rfl)

/-- Counterexample for C2: at a concrete call where the tip changed and
the assembler fails, the caller gets the out-of-memory error but the
previous cache entry is not left intact: the cached template is
discarded, the cached tip is cleared, and the build timestamp moves. -/
theorem gbt_cache_failure_clobbers :
    (updateBlock ⟨some 1, 0, 0, some 7⟩ 2 0 10 none).2.1 =
      .error ⟨RPC_OUT_OF_MEMORY, "Out of memory"⟩
    ∧ (updateBlock ⟨some 1, 0, 0, some 7⟩ 2 0 10 none).1.pblocktemplate ≠ some 7
    ∧ (updateBlock ⟨some 1, 0, 0, some 7⟩ 2 0 10 none).1.pindexPrev ≠ some 1
    ∧ (updateBlock ⟨some 1, 0, 0, some 7⟩ 2 0 10 none).1.nStart ≠ 0 :=
  ⟨rfl, by decide, by decide, by decide⟩

/-- C2 as amended: when a rebuild is due and the assembler fails, the
caller receives the out-of-memory internal error and the cache entry is
invalidated rather than preserved — the cached tip is cleared, the
template discarded, and the snapshot counter and timestamp already
updated — so that every later call rebuilds unconditionally
(the retry the source comment intends). -/
theorem gbt_cache_failure_invalidates (st : GbtCache) (tip txu : Nat) (now : Int)
    (hrb : rebuildNeeded st tip txu now = true) :
    updateBlock st tip txu now none =
      (⟨none, txu, now, none⟩, .error ⟨RPC_OUT_OF_MEMORY, "Out of memory"⟩, true)
    ∧ ∀ (tip' txu' : Nat) (now' : Int) (a : Option Nat),
        (updateBlock (updateBlock st tip txu now none).1 tip' txu' now' a).2.2 = true := by
  have h1 : updateBlock st tip txu now none =
      (⟨none, txu, now, none⟩, .error ⟨RPC_OUT_OF_MEMORY, "Out of memory"⟩, true) := by
    simp [updateBlock, hrb]
  refine ⟨h1, ?_⟩
  intro tip' txu' now' a
  rw [h1]
  have hrb2 : rebuildNeeded ⟨none, txu, now, none⟩ tip' txu' now' = true := by
    simp [rebuildNeeded]
  cases a <;> simp [updateBlock, hrb2]

/-- Witness for C2 as amended at a concrete call. -/
theorem gbt_cache_failure_invalidates_witness :
    updateBlock ⟨some 1, 0, 0, some 7⟩ 2 0 10 none =
      (⟨none, 0, 10, none⟩, .error ⟨RPC_OUT_OF_MEMORY, "Out of memory"⟩, true) :=
  (gbt_cache_failure_invalidates ⟨some 1, 0, 0, some 7⟩ 2 0 10 (by decide)).1

/-- C3: the long-poll loop returns tip-changed as soon as the live best
block differs from the watched hash (while the RPC runs); the mempool
counter is consulted only at a timed-out wake — a non-timed-out wake
just re-enters the loop — and on a timed-out wake the loop ends with
mempool-changed when the counter moved and otherwise extends the
deadline by 10 seconds and repeats; a trace with no timed-out wake can
never end with mempool-changed; and the wait starts with a deadline one
minute (60 seconds) past the start time. -/
theorem longpoll_wait_spec (wh wt : Nat) :
    (∀ (d : Int) (cur : LPObs) (fut : List LPObs), cur.bestBlock ≠ wh →
      cur.rpcRunning = true → lpLoop wh wt d cur fut = (.tipChanged, d, cur))
    ∧ (∀ (d : Int) (cur nxt : LPObs) (rest : List LPObs), cur.bestBlock = wh →
        cur.rpcRunning = true → nxt.timedOut = true → nxt.txUpdated ≠ wt →
        lpLoop wh wt d cur (nxt :: rest) = (.mempoolChanged, d, nxt))
    ∧ (∀ (d : Int) (cur nxt : LPObs) (rest : List LPObs), cur.bestBlock = wh →
        cur.rpcRunning = true → nxt.timedOut = true → nxt.txUpdated = wt →
        lpLoop wh wt d cur (nxt :: rest) = lpLoop wh wt (d + 10) nxt rest)
    ∧ (∀ (d : Int) (cur nxt : LPObs) (rest : List LPObs), cur.bestBlock = wh →
        cur.rpcRunning = true → nxt.timedOut = false →
        lpLoop wh wt d cur (nxt :: rest) = lpLoop wh wt d nxt rest)
    ∧ (∀ (d : Int) (cur : LPObs) (fut : List LPObs), (∀ o ∈ fut, o.timedOut = false) →
        (lpLoop wh wt d cur fut).1 ≠ LPExit.mempoolChanged)
    ∧ (∀ (t : Int) (cur : LPObs) (fut : List LPObs),
        longpollWait wh wt t cur fut = lpLoop wh wt (t + 60) cur fut) := by
  refine ⟨?_, ?_, ?_, ?_, ?_, fun t cur fut => rfl⟩
  · intro d cur fut h1 h2
    cases fut <;> simp [lpLoop, h1, h2]
  · intro d cur nxt rest h1 h2 h3 h4
    simp [lpLoop, h1, h2, h3, h4]
  · intro d cur nxt rest h1 h2 h3 h4
    simp [lpLoop, h1, h2, h3, h4]
  · intro d cur nxt rest h1 h2 h3
    simp [lpLoop, h1, h2, h3]
  · intro d cur fut h
    induction fut generalizing d cur with
    | nil =>
      rw [lpLoop]
      split
      · simp
      · split <;> simp
    | cons nxt rest ih =>
      have hn : nxt.timedOut = false := h nxt (List.mem_cons_self nxt rest)
      rw [lpLoop]
      split
      · rw [if_neg (by simp [hn])]
        exact ih d nxt (fun o ho => h o (List.mem_cons_of_mem nxt ho))
      · split <;> simp

/-- Witness for C3 at a concrete call: a differing best block ends the
wait at once with tip-changed. -/
theorem longpoll_wait_spec_witness :
    lpLoop 0 0 60 ⟨1, true, false, 0⟩ [] = (.tipChanged, 60, ⟨1, true, false, 0⟩) :=
  (longpoll_wait_spec 0 0).1 60 ⟨1, true, false, 0⟩ [] (by decide) rfl

/-- Counterexample for C4: at a concrete call whose wait ends because
the RPC server stopped (the shutdown outcome), the request is not
answered with a template: the handler throws the shutting-down error. -/
theorem longpoll_shutdown_throws :
    (longpollWait 0 0 0 ⟨0, false, false, 0⟩ []).1 = LPExit.rpcStopped
    ∧ tmplAfterWait 0 0 0 ⟨0, false, false, 0⟩ [] 42 =
        .error ⟨RPC_CLIENT_NOT_CONNECTED, "Shutting down"⟩ :=
  ⟨rfl, rfl⟩

/-- C4 as amended: after the long-poll wait the result only gates
proceeding — when the RPC server is still running at loop exit (the
tip-changed and mempool-changed outcomes with a live server) the
request is answered with the template built from current state,
unchanged by which outcome ended the wait; when the server stopped, the
handler instead throws the shutting-down client error and no template
is returned. -/
theorem template_after_wait_gated (wh wt : Nat) (t : Int) (cur : LPObs)
    (fut : List LPObs) (answer : Nat) :
    ((longpollWait wh wt t cur fut).2.2.rpcRunning = true →
      tmplAfterWait wh wt t cur fut answer = .ok answer)
    ∧ ((longpollWait wh wt t cur fut).2.2.rpcRunning = false →
      tmplAfterWait wh wt t cur fut answer =
        .error ⟨RPC_CLIENT_NOT_CONNECTED, "Shutting down"⟩) := by
  constructor
  · intro h
    simp [tmplAfterWait, h]
  · intro h
    simp [tmplAfterWait, h]

/-- Witness for C4 as amended at a concrete call with a live server. -/
theorem template_after_wait_gated_witness :
    tmplAfterWait 0 0 0 ⟨1, true, false, 0⟩ [] 42 = .ok 42 :=
  (template_after_wait_gated 0 0 0 ⟨1, true, false, 0⟩ [] 42).1 rfl

/-- Helper: when the nonce search leaves the try budget at zero or
shutdown has fired by its last step, the whole loop stops, answering
the hashes gathered so far without an error. -/
theorem genLoop_budget_break (env : MineEnv) (r tries it step : Nat)
    (acc : List (Nat × Nat)) (hsd : env.shutdown step = false)
    (hasm : env.assembleOk it = true)
    (hstop : (powSearch env it tries 0 step).1 = 0 ∨
      env.shutdown (powSearch env it tries 0 step).2.2 = true) :
    genLoop env (r + 1) tries it step acc = .ok acc := by
  rw [genLoop.eq_def]
  simp only [hsd, hasm]
  simp only [Bool.false_eq_true, if_false, Bool.true_eq_false]
  rw [if_pos hstop]

/-- Helper: with a unit try budget, a benign environment and some
height among the next r whose first nonce fails the target, the loop
answers without error and mines fewer than r blocks past the
accumulator. -/
theorem genLoop_tries_one (env : MineEnv) (hsd : ∀ s, env.shutdown s = false)
    (hasm : ∀ i, env.assembleOk i = true) (hproc : ∀ i, env.processOk i = true) :
    ∀ (r it step : Nat) (acc : List (Nat × Nat)),
      (∃ j, it ≤ j ∧ j < it + r ∧ env.powOk j 0 = false) →
      ∃ l, genLoop env r 1 it step acc = .ok l ∧ l.length < acc.length + r := by
  intro r
  induction r with
  | zero =>
    intro it step acc hex
    obtain ⟨j, hj1, hj2, _⟩ := hex
    exact absurd hj1 (by omega)
  | succ k ih =>
    intro it step acc hex
    obtain ⟨j, hj1, hj2, hj3⟩ := hex
    by_cases hp : env.powOk it 0 = false
    · have hres : powSearch env it 1 0 step = (0, 1, step + 1) := by
        rw [powSearch, if_pos ⟨by simp [maxNonce], hp, hsd step⟩]
        rw [powSearch]
      refine ⟨acc, ?_, by omega⟩
      exact genLoop_budget_break env k 1 it step acc (hsd step) (hasm it)
        (Or.inl (by rw [hres]))
    · have hp' : env.powOk it 0 = true := by
        revert hp
        cases env.powOk it 0 <;> simp
      have hres : powSearch env it 1 0 step = (1, 0, step) := by
        rw [powSearch, if_neg (by simp [hp'])]
      have hstep : genLoop env (k + 1) 1 it step acc =
          genLoop env k 1 (it + 1) step (acc ++ [(it, 0)]) := by
        rw [genLoop.eq_def]
        simp [hsd, hasm, hproc, hres, maxNonce]
      have hij : it + 1 ≤ j := by
        rcases Nat.lt_or_ge j (it + 1) with hlt | hge
        · have hj : j = it := by omega
          rw [hj, hp'] at hj3
          exact absurd hj3 (by simp)
        · exact hge
      obtain ⟨l, hl, hlen⟩ := ih (it + 1) step (acc ++ [(it, 0)]) ⟨j, hij, by omega, hj3⟩
      refine ⟨l, by rw [hstep]; exact hl, ?_⟩
      simp only [List.length_append, List.length_cons, List.length_nil] at hlen
      omega

/-- C8: when the try budget reaches zero or shutdown fires during the
nonce search, the whole direct-mining loop stops and the hashes of the
blocks mined so far are answered without an error; in particular, with
a benign environment whose proof-of-work check fails at the first nonce
of some of the first five heights, mining 5 blocks with a try budget of
1 answers without error and yields fewer than 5 hashes. -/
theorem generateBlocks_stops_on_budget :
    (∀ (env : MineEnv) (r tries it step : Nat) (acc : List (Nat × Nat)),
      env.shutdown step = false → env.assembleOk it = true →
      ((powSearch env it tries 0 step).1 = 0 ∨
        env.shutdown (powSearch env it tries 0 step).2.2 = true) →
      genLoop env (r + 1) tries it step acc = .ok acc)
    ∧ (∀ env : MineEnv, (∀ s, env.shutdown s = false) →
        (∀ i, env.assembleOk i = true) → (∀ i, env.processOk i = true) →
        ∀ j, j < 5 → env.powOk j 0 = false →
        ∃ l, generateBlocks env 5 1 = .ok l ∧ l.length < 5) := by
  constructor
  · intro env r tries it step acc hsd hasm hstop
    exact genLoop_budget_break env r tries it step acc hsd hasm hstop
  · intro env hsd hasm hproc j hj5 hp
    have h := genLoop_tries_one env hsd hasm hproc 5 0 0 []
      ⟨j, Nat.zero_le j, by omega, hp⟩
    obtain ⟨l, hl, hlen⟩ := h
    exact ⟨l, hl, by simpa using hlen⟩

/-- Witness for C8 at a concrete environment where every first nonce
fails the target: mining 5 blocks with one try stops short without an
error. -/
theorem generateBlocks_stops_on_budget_witness :
    ∃ l, generateBlocks ⟨fun _ _ => false, fun _ => true, fun _ => true, fun _ => false⟩
        5 1 = .ok l ∧ l.length < 5 :=
  generateBlocks_stops_on_budget.2
    ⟨fun _ _ => false, fun _ => true, fun _ => true, fun _ => false⟩
    (fun _ => rfl) (fun _ => rfl) (fun _ => rfl) 0 (by omega) rfl

/-- Helper: invariant of the transaction listing loop — with a sound
and complete index map for the first i positions, every emitted entry
is a non-coinbase transaction of the list whose depends indices are
sound (each strictly below the entry position and naming a placed
transaction matching one of its input hashes) and complete (every input
hash matching an earlier placed transaction contributes an index). -/
theorem gbtEntries_invariant (full : List Tx)
    (hself : ∀ tx ∈ full, tx.hash ∉ tx.inputs) :
    ∀ (rest : List Tx) (i : Nat) (m : List (Nat × Nat)),
      full.drop i = rest →
      (∀ h j, lookupIdx m h = some j →
        j < i ∧ ∃ txj, full.get? j = some txj ∧ txj.hash = h) →
      (∀ j txj, j < i → full.get? j = some txj →
        (lookupIdx m txj.hash).isSome = true) →
      ∀ p deps, (p, deps) ∈ gbtEntries rest i m →
        ∃ txp, full.get? p = some txp ∧ txp.isCoinBase = false ∧
          (∀ d ∈ deps, d < p ∧ ∃ txd, full.get? d = some txd ∧ txd.hash ∈ txp.inputs) ∧
          (∀ h ∈ txp.inputs, ∀ q txq, q < p → full.get? q = some txq → txq.hash = h →
            ∃ d ∈ deps, d < p ∧ ∃ txd, full.get? d = some txd ∧ txd.hash = h) := by
  intro rest
  induction rest with
  | nil =>
    intro i m _ _ _ p deps hmem
    simp [gbtEntries] at hmem
  | cons tx rest' ih =>
    intro i m hdrop hsound hcomp p deps hmem
    have hgi : full.get? i = some tx := by
      have h0 : (full.drop i).get? 0 = some tx := by rw [hdrop]; rfl
      rw [List.get?_drop] at h0
      simpa using h0
    have hdrop' : full.drop (i + 1) = rest' := by
      have h1 : (full.drop i).drop 1 = full.drop (i + 1) := List.drop_drop 1 i full
      rw [hdrop] at h1
      exact h1.symm
    have htxmem : tx ∈ full := List.get?_mem hgi
    have hsound' : ∀ h j, lookupIdx ((tx.hash, i) :: m) h = some j →
        j < i + 1 ∧ ∃ txj, full.get? j = some txj ∧ txj.hash = h := by
      intro h j hl
      rw [lookupIdx] at hl
      by_cases hh : h = tx.hash
      · rw [if_pos hh] at hl
        cases hl
        exact ⟨Nat.lt_succ_self i, tx, hgi, hh.symm⟩
      · rw [if_neg hh] at hl
        obtain ⟨hji, txj, hj1, hj2⟩ := hsound h j hl
        exact ⟨Nat.lt_succ_of_lt hji, txj, hj1, hj2⟩
    have hcomp' : ∀ j txj, j < i + 1 → full.get? j = some txj →
        (lookupIdx ((tx.hash, i) :: m) txj.hash).isSome = true := by
      intro j txj hji hgj
      rw [lookupIdx]
      by_cases hh : txj.hash = tx.hash
      · rw [if_pos hh]; rfl
      · rw [if_neg hh]
        rcases Nat.lt_succ_iff_lt_or_eq.mp hji with hlt | heq
        · exact hcomp j txj hlt hgj
        · subst heq
          rw [hgi] at hgj
          cases hgj
          exact absurd rfl hh
    by_cases hcb : tx.isCoinBase = true
    · rw [gbtEntries, if_pos hcb] at hmem
      exact ih (i + 1) ((tx.hash, i) :: m) hdrop' hsound' hcomp' p deps hmem
    · rw [gbtEntries, if_neg hcb] at hmem
      rcases List.mem_cons.mp hmem with hhead | htail
      · injection hhead with hp hdeps
        subst hp
        subst hdeps
        refine ⟨tx, hgi, by revert hcb; cases tx.isCoinBase <;> simp, ?_, ?_⟩
        · intro d hd
          obtain ⟨h, hhin, hlk⟩ := List.mem_filterMap.mp hd
          have hneq : h ≠ tx.hash := by
            intro he
            subst he
            exact hself tx htxmem hhin
          rw [lookupIdx, if_neg hneq] at hlk
          obtain ⟨hdi, txd, hd1, hd2⟩ := hsound h d hlk
          exact ⟨hdi, txd, hd1, by rw [hd2]; exact hhin⟩
        · intro h hhin q txq hq hgq hqh
          have hneq : h ≠ tx.hash := by
            intro he
            subst he
            exact hself tx htxmem hhin
          have hs : (lookupIdx m h).isSome = true := by
            have hc := hcomp q txq hq hgq
            rw [hqh] at hc
            exact hc
          obtain ⟨d, hd⟩ := Option.isSome_iff_exists.mp hs
          obtain ⟨hdi, txd, hd1, hd2⟩ := hsound h d hd
          refine ⟨d, ?_, hdi, txd, hd1, hd2⟩
          apply List.mem_filterMap.mpr
          exact ⟨h, hhin, by rw [lookupIdx, if_neg hneq]; exact hd⟩
      · exact ih (i + 1) ((tx.hash, i) :: m) hdrop' hsound' hcomp' p deps htail

/-- C9: provided no transaction lists its own hash among its input
hashes (true of any real transaction, whose hash commits to its
inputs), every depends index emitted by the template listing is
strictly below the position of the referencing transaction and names a
transaction placed earlier in the same template whose hash one of the
inputs spends; and conversely an index is recorded exactly when an
input hash matches an already-placed transaction. -/
theorem gbt_depends_bounded (txs : List Tx)
    (hself : ∀ tx ∈ txs, tx.hash ∉ tx.inputs) :
    ∀ p deps, (p, deps) ∈ gbtEntries txs 0 [] →
      ∃ txp, txs.get? p = some txp ∧ txp.isCoinBase = false ∧
        (∀ d ∈ deps, d < p ∧ ∃ txd, txs.get? d = some txd ∧ txd.hash ∈ txp.inputs) ∧
        (∀ h ∈ txp.inputs, ∀ q txq, q < p → txs.get? q = some txq → txq.hash = h →
          ∃ d ∈ deps, d < p ∧ ∃ txd, txs.get? d = some txd ∧ txd.hash = h) := by
  intro p deps hmem
  refine gbtEntries_invariant txs hself txs 0 [] (by simp) ?_ ?_ p deps hmem
  · intro h j hl
    exact Option.noConfusion hl
  · intro j txj hj _
    exact absurd hj (Nat.not_lt_zero j)

/-- Witness for C9 at a concrete three-transaction template: the third
transaction (position 2) depends exactly on the second (index 1). -/
theorem gbt_depends_bounded_witness :
    ∃ txp, ([⟨10, [], true⟩, ⟨11, [10], false⟩, ⟨12, [11, 99], false⟩] : List Tx).get? 2 =
        some txp ∧ txp.isCoinBase = false ∧
      (∀ d ∈ ([1] : List Nat), d < 2 ∧
        ∃ txd, ([⟨10, [], true⟩, ⟨11, [10], false⟩, ⟨12, [11, 99], false⟩] : List Tx).get? d =
          some txd ∧ txd.hash ∈ txp.inputs) ∧
      (∀ h ∈ txp.inputs, ∀ q txq, q < 2 →
        ([⟨10, [], true⟩, ⟨11, [10], false⟩, ⟨12, [11, 99], false⟩] : List Tx).get? q =
          some txq → txq.hash = h →
        ∃ d ∈ ([1] : List Nat), d < 2 ∧
          ∃ txd, ([⟨10, [], true⟩, ⟨11, [10], false⟩, ⟨12, [11, 99], false⟩] : List Tx).get? d =
            some txd ∧ txd.hash = h) :=
  gbt_depends_bounded [⟨10, [], true⟩, ⟨11, [10], false⟩, ⟨12, [11, 99], false⟩]
    (by decide) 2 [1] (by decide)
